import Mathlib

/-!
Verification of the lxc-top monitor (src/src/lxc-top/main.go) against its
specification.  The Go program is embedded shallowly: machine integers are
`Nat`/`Int` with explicit reduction modulo 2^64 where Go's `uint64`
arithmetic wraps, the container map is an association list with Go's
zero-value-on-missing-key lookup, `time.Time` values are nanosecond counts,
and the external `lxc-ls` / `lxc-info` commands are parameters (exit error,
output text, timeout flag).  A `uint64` division by zero, which panics in
Go, is modelled by an `Option` result.
-/

/-- 2^64, the modulus of Go `uint64` arithmetic. -/
abbrev U64 : Nat := 18446744073709551616

/-- Go `uint64` subtraction `a - b` (wraps on underflow); `a b < U64`. -/
def u64sub (a b : Nat) : Nat := (a + U64 - b) % U64

/-- Go conversion `int(n)` of a `uint64` value `n` to a (64-bit) `int`:
reinterpretation of the two's-complement bit pattern. -/
def intOfU64 (n : Nat) : Int :=
  if n < 9223372036854775808 then (n : Int) else (n : Int) - (U64 : Int)

/-- Go conversion `uint64(i)` of an `int64` value `i`: two's-complement
bit pattern as an unsigned value. -/
def u64OfInt (i : Int) : Nat := (i % (U64 : Int)).toNat

/-- `time.Time.Sub` for two nanosecond timestamps: the difference as an
`int64` `time.Duration`, saturating at the extreme durations per the Go
documentation of `Sub`. -/
def durGo (nowT oldT : Nat) : Int :=
  if (nowT : Int) - (oldT : Int) < -9223372036854775808 then -9223372036854775808
  else if 9223372036854775807 < (nowT : Int) - (oldT : Int) then 9223372036854775807
  else (nowT : Int) - (oldT : Int)

/-- The `Container` struct of main.go.  `LastCheckTime` is a nanosecond
timestamp, `Cpu` and `Mem` are `uint64` values (`< U64`), `CpuPct` is a
64-bit `int`. -/
structure Container where
  Name : String
  LastCheckTime : Nat
  Cpu : Nat
  CpuPct : Int
  Mem : Nat
deriving DecidableEq

/-- The `Containers map[string]Container` field of `ContainerMap`,
as an association list. -/
abbrev Store := List (String × Container)

/-- Go map read `containers.Containers[container]`: the stored value, or
the zero-value `Container` when the key is absent. -/
def lookupC (s : Store) (k : String) : Container :=
  match s.find? (fun p => p.1 == k) with
  | some p => p.2
  | none => ⟨"", 0, 0, 0, 0⟩

/-- Go map write `containers.Containers[container] = c`. -/
def insertC (s : Store) (k : String) (c : Container) : Store :=
  (k, c) :: s.filter (fun p => p.1 != k)

/-- The store-update tail of `lxcInfo` (main.go lines 237-245), executed
under the store's lock: look up the previous snapshot; when one exists
(`old.Name != ""`), set `c.CpuPct = int(elapsed_cpu * 100 / uint64(dur))`
with `elapsed_cpu := c.Cpu - old.Cpu` in `uint64` arithmetic and
`dur := c.LastCheckTime.Sub(old.LastCheckTime)`; then store the new
snapshot.  `none` models the Go runtime panic on `uint64` division by
zero (`uint64(dur) == 0`). -/
def lxcInfoUpdate (container : String) (cpu_time mem_used nowT : Nat) (s : Store) :
    Option Store :=
  if (lookupC s container).Name = "" then
    some (insertC s container ⟨container, nowT, cpu_time, 0, mem_used⟩)
  else if u64OfInt (durGo nowT (lookupC s container).LastCheckTime) = 0 then
    none
  else
    some (insertC s container
      ⟨container, nowT, cpu_time,
        intOfU64 (u64sub cpu_time (lookupC s container).Cpu * 100 % U64 /
          u64OfInt (durGo nowT (lookupC s container).LastCheckTime)),
        mem_used⟩)

lemma u64sub_of_le {a b : Nat} (hba : b ≤ a) (ha : a < U64) : u64sub a b = a - b := by
  unfold u64sub
  simp only [U64] at ha ⊢
  omega

lemma durGo_eq {t1 nowT : Nat} (h1 : t1 ≤ nowT) (h2 : nowT - t1 < 9223372036854775808) :
    durGo nowT t1 = ((nowT - t1 : Nat) : Int) := by
  unfold durGo
  rw [if_neg (by omega), if_neg (by omega)]
  omega

lemma u64OfInt_durGo {t1 nowT : Nat} (h1 : t1 ≤ nowT) (h2 : nowT - t1 < 9223372036854775808) :
    u64OfInt (durGo nowT t1) = nowT - t1 := by
  rw [durGo_eq h1 h2]
  unfold u64OfInt
  simp only [U64]
  omega

lemma u64OfInt_durGo_ne_zero {t1 nowT : Nat} (h : t1 < nowT) :
    u64OfInt (durGo nowT t1) ≠ 0 := by
  unfold u64OfInt durGo
  rw [if_neg (by omega)]
  split
  · simp only [U64]
    omega
  · simp only [U64]
    omega

lemma intOfU64_small {n : Nat} (h : n < 9223372036854775808) : intOfU64 n = (n : Int) := by
  unfold intOfU64
  rw [if_pos h]

/-- Claim C1 (amended): applying a raw sample for an identity with no
stored snapshot stores `CpuPct = 0` without computing from a missing
predecessor; applying one to an identity with a stored snapshot whose
counter `c1` satisfies `c1 ≤ c2` and whose timestamp precedes the new one
stores `CpuPct = floor((c2 - c1) * 100 / elapsed)` with `elapsed` in
nanoseconds (the counter's unit), provided the scaled delta
`(c2 - c1) * 100` fits a signed 64-bit value (no `uint64` wrap of the
product and no sign flip in the `int` conversion) and the elapsed time is
below the `int64` duration saturation bound. -/
theorem c1_cpu_pct (s : Store) (id : String) (c2 mem nowT : Nat) (hc2 : c2 < U64) :
    ((lookupC s id).Name = "" →
      lxcInfoUpdate id c2 mem nowT s = some (insertC s id ⟨id, nowT, c2, 0, mem⟩)) ∧
    ((lookupC s id).Name ≠ "" →
      (lookupC s id).Cpu ≤ c2 →
      (lookupC s id).LastCheckTime < nowT →
      nowT - (lookupC s id).LastCheckTime < 9223372036854775808 →
      (c2 - (lookupC s id).Cpu) * 100 < 9223372036854775808 →
      lxcInfoUpdate id c2 mem nowT s =
        some (insertC s id
          ⟨id, nowT, c2,
            (((c2 - (lookupC s id).Cpu) * 100 / (nowT - (lookupC s id).LastCheckTime) : Nat) : Int),
            mem⟩)) := by
  constructor
  · intro h
    unfold lxcInfoUpdate
    rw [if_pos h]
  · intro hname hcle htlt hdurlt hmul
    unfold lxcInfoUpdate
    rw [if_neg hname]
    rw [u64OfInt_durGo (Nat.le_of_lt htlt) hdurlt]
    rw [if_neg (by omega)]
    rw [u64sub_of_le hcle hc2]
    have hmod : (c2 - (lookupC s id).Cpu) * 100 % U64 = (c2 - (lookupC s id).Cpu) * 100 := by
      simp only [U64]
      omega
    rw [hmod]
    rw [intOfU64_small (lt_of_le_of_lt (Nat.div_le_self _ _) hmul)]

/-- Witness for C1: a concrete re-sample (previous counter 0 at time 0,
new counter 50 at 100 ns) stores `CpuPct = 50 * 100 / 100 = 50`. -/
theorem c1_cpu_pct_witness :
    lxcInfoUpdate "a" 50 7 100 [("a", ⟨"a", 0, 0, 0, 0⟩)] =
      some (insertC [("a", ⟨"a", 0, 0, 0, 0⟩)] "a"
        ⟨"a", 100, 50,
          (((50 - (lookupC [("a", ⟨"a", 0, 0, 0, 0⟩)] "a").Cpu) * 100 /
            (100 - (lookupC [("a", ⟨"a", 0, 0, 0, 0⟩)] "a").LastCheckTime) : Nat) : Int),
          7⟩) :=
  (c1_cpu_pct [("a", ⟨"a", 0, 0, 0, 0⟩)] "a" 50 7 100 (by decide)).2
    (by decide) (by decide) (by decide) (by decide) (by decide)

/-- Counterexample to C1 as stated: with previous counter 0 and new
counter 2^58 one nanosecond later, the `uint64` product `2^58 * 100`
wraps modulo 2^64 and the `int` conversion goes negative, so the stored
percentage is `-8070450532247928832`, not
`floor((c2 - c1) * 100 / elapsed) = 28823037615171174400`. -/
theorem c1_counterexample :
    lxcInfoUpdate "a" 288230376151711744 0 1 [("a", ⟨"a", 0, 0, 0, 0⟩)] =
      some [("a", ⟨"a", 1, 288230376151711744, -8070450532247928832, 0⟩)] ∧
    (-8070450532247928832 : Int) ≠
      (((288230376151711744 - 0) * 100 / (1 - 0) : Nat) : Int) := by
  constructor
  · decide
  · decide

/-- Claim C2, evaluated at the failing input: after a counter reset
(previous `Cpu = 100`, new `Cpu = 50`, one second elapsed) the code's
`uint64` subtraction wraps and it stores the huge percentage
`18446744073`, not the reset-tolerant default `0` that the specification
requires. -/
theorem c2_underflow_eval :
    lxcInfoUpdate "a" 50 0 1000000000 [("a", ⟨"a", 0, 100, 0, 0⟩)] =
      some [("a", ⟨"a", 1000000000, 50, 18446744073, 0⟩)] ∧
    (18446744073 : Int) ≠ 0 := by
  constructor
  · decide
  · decide

/-- Claim C10: the percentage update divides by the elapsed time with no
guard.  Whenever a previous snapshot exists and the new observation time
strictly exceeds the stored one, the update is total (returns `some`);
the strict inequality is required: at equal timestamps the `uint64`
divisor is zero and the update faults (the Go runtime division-by-zero
panic, modelled as `none`). -/
theorem c10_elapsed_guard :
    (∀ (s : Store) (id : String) (c2 mem nowT : Nat),
      (lookupC s id).Name ≠ "" →
      (lookupC s id).LastCheckTime < nowT →
      (lxcInfoUpdate id c2 mem nowT s).isSome = true) ∧
    lxcInfoUpdate "a" 5 0 7 [("a", ⟨"a", 7, 3, 0, 0⟩)] = none := by
  constructor
  · intro s id c2 mem nowT hname htlt
    unfold lxcInfoUpdate
    rw [if_neg hname]
    rw [if_neg (u64OfInt_durGo_ne_zero htlt)]
    rfl
  · decide

/-- Witness for C10: a concrete re-sample two nanoseconds after the
stored snapshot succeeds. -/
theorem c10_elapsed_guard_witness :
    (lxcInfoUpdate "a" 5 0 9 [("a", ⟨"a", 7, 3, 0, 0⟩)]).isSome = true :=
  c10_elapsed_guard.1 [("a", ⟨"a", 7, 3, 0, 0⟩)] "a" 5 0 9 (by decide) (by decide)

/-- Strip a literal character sequence from the front of the input,
returning the remainder on success. -/
def stripLit : List Char → List Char → Option (List Char)
  | [], cs => some cs
  | _ :: _, [] => none
  | l :: ls, c :: cs => if c = l then stripLit ls cs else none

/-- Match the regular pattern `<lit>[ ]+(\d+)` anchored at the start of
`cs`: the literal, then one or more further spaces, then one or more
digits; returns the greedy digit capture. -/
def matchNumAfter (lit cs : List Char) : Option (List Char) :=
  match stripLit lit cs with
  | none => none
  | some rest =>
      let sp := rest.takeWhile (fun c => c == ' ')
      let restd := rest.dropWhile (fun c => c == ' ')
      let ds := restd.takeWhile Char.isDigit
      if sp.isEmpty then none
      else if ds.isEmpty then none
      else some ds

/-- Leftmost match of `<lit>[ ]+(\d+)` in the input, as computed by
`regexp.FindAllStringSubmatch(...)[0][1]`: scan positions left to right
and return the first digit capture. -/
def findNum (lit : List Char) : List Char → Option (List Char)
  | [] => none
  | c :: cs =>
      match matchNumAfter lit (c :: cs) with
      | some ds => some ds
      | none => findNum lit cs

/-- The literal head of `elapsedRex`, the pattern `CPU use: [ ]+(\d+)`. -/
def cpuLit : List Char := "CPU use: ".data

/-- The literal head of `memRex`, the pattern `Memory use: [ ]+(\d+)`. -/
def memLit : List Char := "Memory use: ".data

/-- Decimal value of a digit string. -/
def digitsToNat (ds : List Char) : Nat :=
  ds.foldl (fun a c => a * 10 + (c.toNat - 48)) 0

/-- `strconv.ParseUint(s, 10, 64)` with the error discarded, as in
main.go: on range overflow Go returns the maximum `uint64`. -/
def parseUint64 (ds : List Char) : Nat := min (digitsToNat ds) (U64 - 1)

/-- The observable effect of `Fatal` (main.go lines 249-256): close the
terminal when it is initialized, print the message, exit with status 1. -/
structure FatalEffect where
  closedTerminal : Bool
  printed : String
  exitCode : Nat
deriving DecidableEq

/-- The `Fatal` routine: `termboxInit` is `termbox.IsInit`. -/
def Fatal (termboxInit : Bool) (msg : String) : FatalEffect :=
  ⟨termboxInit, msg, 1⟩

/-- Outcome of one `lxcInfo` call: fatal termination, a runtime panic
(the unguarded division by zero), or completion with the updated store
(unchanged when the container is treated as stopped). -/
inductive LxcInfoResult where
  | fatal (f : FatalEffect)
  | panicked
  | ok (s : Store)
deriving DecidableEq

/-- `lxcInfo` (main.go lines 211-246).  The external `lxc-info` command
is abstracted by its observable behaviour: whether the timeout context
fired (`timedOut`), the command error (`execErr`), and the combined
output text (`out`); `nowT` is the `time.Now()` nanosecond timestamp and
`tb` is `termbox.IsInit` at the time of a `Fatal` call. -/
def lxcInfo (tb : Bool) (container : String) (timedOut : Bool) (execErr : Option String)
    (out : String) (nowT : Nat) (s : Store) : LxcInfoResult :=
  if timedOut then
    .fatal (Fatal tb ("Timed out getting lxc-info for container " ++ container))
  else
    match execErr with
    | some e =>
        .fatal (Fatal tb ("Unable to get lxc-info for " ++ container ++ " (" ++ e ++ "):\n" ++ out))
    | none =>
        match findNum cpuLit out.data with
        | none => .ok s
        | some ds =>
            match findNum memLit out.data with
            | none => .fatal (Fatal tb ("Unable to find mem use  in output:\n" ++ out))
            | some ms =>
                match lxcInfoUpdate container (parseUint64 ds) (parseUint64 ms) nowT s with
                | none => .panicked
                | some s2 => .ok s2

/-- Claim C4: when the fetch output does not match the CPU-use pattern,
`lxcInfo` returns with the store unchanged — no entry is added for the
identity and no error is raised (the container is treated as stopped). -/
theorem c4_stopped_skip (tb : Bool) (container out : String) (nowT : Nat) (s : Store)
    (h : findNum cpuLit out.data = none) :
    lxcInfo tb container false none out nowT s = .ok s := by
  simp [lxcInfo, h]

/-- Witness for C4: output with no CPU-use line leaves an empty store
empty and raises no error. -/
theorem c4_stopped_skip_witness :
    lxcInfo true "web" false none "web is STOPPED" 5 [] = .ok [] :=
  c4_stopped_skip true "web" "web is STOPPED" 5 [] (by decide)

/-- Claim C5: when the fetch output matches the CPU-use pattern but not
the memory-use pattern, `lxcInfo` terminates fatally: the terminal
(initialized during the monitoring loop) is closed, the human-readable
message is printed, and the exit status is 1 — the condition is neither
skipped nor recovered. -/
theorem c5_malformed_fatal (container out : String) (nowT : Nat) (s : Store)
    (h1 : (findNum cpuLit out.data).isSome = true)
    (h2 : findNum memLit out.data = none) :
    lxcInfo true container false none out nowT s =
      .fatal ⟨true, "Unable to find mem use  in output:\n" ++ out, 1⟩ := by
  obtain ⟨ds, hds⟩ := Option.isSome_iff_exists.mp h1
  simp [lxcInfo, hds, h2, Fatal]

/-- Witness for C5: output with a CPU-use line but no memory-use line is
fatal with exit status 1 and the terminal closed. -/
theorem c5_malformed_fatal_witness :
    lxcInfo true "db" false none "CPU use:  42" 5 [] =
      .fatal ⟨true, "Unable to find mem use  in output:\nCPU use:  42", 1⟩ :=
  c5_malformed_fatal "db" "CPU use:  42" 5 [] (by decide) (by decide)

/-- `unicode.IsSpace`, the character class trimmed by
`strings.TrimSpace`. -/
def goIsSpace (c : Char) : Bool :=
  (9 ≤ c.toNat && c.toNat ≤ 13) || c.toNat = 32 || c.toNat = 133 || c.toNat = 160 ||
  c.toNat = 5760 || (8192 ≤ c.toNat && c.toNat ≤ 8202) || c.toNat = 8232 ||
  c.toNat = 8233 || c.toNat = 8239 || c.toNat = 8287 || c.toNat = 12288

/-- `strings.TrimSpace`: drop leading and trailing white space. -/
def trimGo (s : String) : String :=
  ⟨((s.data.dropWhile goIsSpace).reverse.dropWhile goIsSpace).reverse⟩

/-- Whether `needle` occurs at the start of `hay`. -/
def startsWithL : List Char → List Char → Bool
  | [], _ => true
  | _ :: _, [] => false
  | a :: as, b :: bs => a == b && startsWithL as bs

/-- Whether `needle` occurs anywhere inside `hay` (used to state that a
diagnostic message names a cause). -/
def containsSub (needle : List Char) : List Char → Bool
  | [] => needle.isEmpty
  | b :: bs => startsWithL needle (b :: bs) || containsSub needle bs

/-- The diagnostic printed by `lxcList` when the enumeration command
produced no output. -/
def noOutputMsg : String :=
  "lxc-info produced no output. Either no containers are running or you forgot to \x27sudo lxc-top\x27"

/-- `lxcList` (main.go lines 192-208).  The `lxc-ls` command is
abstracted by its error (`execErr`, the `err.Error()` text when the
command failed) and combined output `out`; `tb` is `termbox.IsInit`.
On success the output is split on newlines and each name is trimmed of
white space. -/
def lxcList (tb : Bool) (execErr : Option String) (out : String) :
    Except FatalEffect (List String) :=
  match execErr with
  | some e =>
      .error (Fatal tb ("Unable to execute lxc-list (" ++ e ++ "):\n" ++ out))
  | none =>
      if out = "" then .error (Fatal tb noOutputMsg)
      else .ok ((out.splitOn "\n").map trimGo)

/-- Claim C9 (amended): a non-zero exit of the enumeration command is
fatal with status 1 and a diagnostic reporting the execution error and
its output; empty output is fatal with status 1 and a diagnostic naming
the likely causes (no containers running, or a missing `sudo`); on any
other output the result is the newline-split, white-space-trimmed list
of container identities. -/
theorem c9_enumeration (tb : Bool) (out : String) :
    (∀ e : String,
      lxcList tb (some e) out =
        .error ⟨tb, "Unable to execute lxc-list (" ++ e ++ "):\n" ++ out, 1⟩) ∧
    (out = "" →
      lxcList tb none out = .error ⟨tb, noOutputMsg, 1⟩ ∧
      containsSub "no containers are running".data noOutputMsg.data = true ∧
      containsSub "sudo".data noOutputMsg.data = true) ∧
    (out ≠ "" → lxcList tb none out = .ok ((out.splitOn "\n").map trimGo)) := by
  refine ⟨fun e => rfl, fun h => ⟨?_, by decide, by decide⟩, fun h => ?_⟩
  · simp [lxcList, h, Fatal]
  · simp [lxcList, h]

/-- Witness for C9: empty enumeration output is fatal with status 1 and
a diagnostic naming the `sudo` cause. -/
theorem c9_enumeration_witness :
    lxcList true none "" = .error ⟨true, noOutputMsg, 1⟩ ∧
    containsSub "sudo".data noOutputMsg.data = true :=
  ⟨((c9_enumeration true "").2.1 rfl).1, ((c9_enumeration true "").2.1 rfl).2.2⟩

/-- Counterexample to C9 as stated: when the enumeration command exits
non-zero, the process does terminate fatally with status 1, but the
diagnostic reports the execution error and names neither likely cause
(neither "no containers are running" nor "sudo" occurs in it). -/
theorem c9_counterexample :
    lxcList true (some "exit status 1") "boom" =
      .error ⟨true, "Unable to execute lxc-list (exit status 1):\nboom", 1⟩ ∧
    containsSub "no containers are running".data
      "Unable to execute lxc-list (exit status 1):\nboom".data = false ∧
    containsSub "sudo".data "Unable to execute lxc-list (exit status 1):\nboom".data = false := by
  refine ⟨rfl, by decide, by decide⟩

/-- Round `num / den` to the nearest integer, ties to even (`den > 0`).
This is the rounding used both by the `uint64` to `float64` conversion
and by Go's fixed-precision decimal formatting. -/
def roundHalfEvenDiv (num den : Nat) : Nat :=
  let q := num / den
  let r := num % den
  if 2 * r < den then q
  else if den < 2 * r then q + 1
  else if q % 2 = 0 then q else q + 1

/-- The exact value of the Go conversion `float64(n)` for a `uint64`
`n`: values below 2^53 are exact; larger ones are rounded to the nearest
multiple of the unit in the last place of the 53-bit significand, ties
to even.  The result is an integer because every `float64` at or above
2^52 is. -/
def float64OfU64 (n : Nat) : Nat :=
  if n < 9007199254740992 then n
  else roundHalfEvenDiv n (2 ^ (Nat.log2 n - 52)) * 2 ^ (Nat.log2 n - 52)

/-- Two decimal digits, zero padded. -/
def pad2 (n : Nat) : String := if n < 10 then "0" ++ toString n else toString n

/-- `fmt.Sprintf("%0.2f", x)` for the exact nonnegative dyadic rational
`x = num / den` (`den` a power of two): Go's formatter emits the exact
binary value correctly rounded to two decimals, ties to even. -/
def fmtF2 (num den : Nat) : String :=
  toString (roundHalfEvenDiv (num * 100) den / 100) ++ "." ++
    pad2 (roundHalfEvenDiv (num * 100) den % 100)

/-- `Container.MemPretty` (main.go lines 63-76): pick the largest binary
unit whose threshold the byte count exceeds and print the `float64`
quotient with two decimals, or a bare integer for bytes. -/
def MemPretty (mem : Nat) : String :=
  if 1073741824 < mem then fmtF2 (float64OfU64 mem) 1073741824 ++ " GB"
  else if 1048576 < mem then fmtF2 (float64OfU64 mem) 1048576 ++ " MB"
  else if 1024 < mem then fmtF2 (float64OfU64 mem) 1024 ++ " KB"
  else toString mem ++ " B"

/-- Claim C6: the four specified boundary values format as stated, and
for every byte count the formatter uses the largest binary unit whose
threshold the value exceeds, printing the quotient with exactly two
decimal places for KB/MB/GB and a bare integer for bytes. -/
theorem c6_mem_formatting :
    MemPretty 999 = "999 B" ∧
    MemPretty 2048 = "2.00 KB" ∧
    MemPretty 5242880 = "5.00 MB" ∧
    MemPretty 3221225472 = "3.00 GB" ∧
    (∀ m : Nat,
      (m ≤ 1024 → MemPretty m = toString m ++ " B") ∧
      (1024 < m → m ≤ 1048576 →
        MemPretty m =
          toString (roundHalfEvenDiv (float64OfU64 m * 100) 1024 / 100) ++ "." ++
            pad2 (roundHalfEvenDiv (float64OfU64 m * 100) 1024 % 100) ++ " KB") ∧
      (1048576 < m → m ≤ 1073741824 →
        MemPretty m =
          toString (roundHalfEvenDiv (float64OfU64 m * 100) 1048576 / 100) ++ "." ++
            pad2 (roundHalfEvenDiv (float64OfU64 m * 100) 1048576 % 100) ++ " MB") ∧
      (1073741824 < m →
        MemPretty m =
          toString (roundHalfEvenDiv (float64OfU64 m * 100) 1073741824 / 100) ++ "." ++
            pad2 (roundHalfEvenDiv (float64OfU64 m * 100) 1073741824 % 100) ++ " GB")) ∧
    (∀ n : Nat, n < 100 → (pad2 n).length = 2) := by
  refine ⟨by decide, by decide, by decide, by decide, fun m => ⟨?_, ?_, ?_, ?_⟩, by decide⟩
  · intro h
    unfold MemPretty
    rw [if_neg (by omega), if_neg (by omega), if_neg (by omega)]
  · intro h1 h2
    unfold MemPretty
    rw [if_neg (by omega), if_neg (by omega), if_pos h1]
    rfl
  · intro h1 h2
    unfold MemPretty
    rw [if_neg (by omega), if_pos h1]
    rfl
  · intro h1
    unfold MemPretty
    rw [if_pos h1]
    rfl

/-- Witness for C6: the KB branch at 2048 bytes (2.00 KB, with a
two-character fractional part). -/
theorem c6_mem_formatting_witness :
    MemPretty 2048 =
      toString (roundHalfEvenDiv (float64OfU64 2048 * 100) 1024 / 100) ++ "." ++
        pad2 (roundHalfEvenDiv (float64OfU64 2048 * 100) 1024 % 100) ++ " KB" ∧
    (pad2 7).length = 2 :=
  ⟨(c6_mem_formatting.2.2.2.2.1 2048).2.1 (by decide) (by decide),
   c6_mem_formatting.2.2.2.2.2 7 (by decide)⟩

/-- The order established by `sort.Sort(ByCpu(...))`: after sorting,
every earlier element `a` and later element `b` satisfy
`¬ ByCpu.Less(b, a)`, i.e. `b.CpuPct ≤ a.CpuPct` (descending CPU
percentage; ties in an unspecified order). -/
def cpuGe (a b : Container) : Prop := b.CpuPct ≤ a.CpuPct

instance : DecidableRel cpuGe := fun a b => inferInstanceAs (Decidable (b.CpuPct ≤ a.CpuPct))

instance : IsTotal Container cpuGe := ⟨fun a b => le_total b.CpuPct a.CpuPct⟩

instance : IsTrans Container cpuGe := ⟨fun _ _ _ hab hbc => le_trans hbc hab⟩

/-- The order established by `sort.Sort(ByMem(...))`: descending `Mem`. -/
def memGe (a b : Container) : Prop := b.Mem ≤ a.Mem

instance : DecidableRel memGe := fun a b => inferInstanceAs (Decidable (b.Mem ≤ a.Mem))

instance : IsTotal Container memGe := ⟨fun a b => le_total b.Mem a.Mem⟩

instance : IsTrans Container memGe := ⟨fun _ _ _ hab hbc => le_trans hbc hab⟩

/-- `sort.Sort(ByCpu(containers))` in `sortAndDisplay`: the Go library
sort guarantees a permutation ordered by the `Less` method (stability
unspecified); it is modelled by insertion sort with the same order. -/
def sortByCpu (l : List Container) : List Container := List.insertionSort cpuGe l

/-- `sort.Sort(ByMem(containers))` in `sortAndDisplay`. -/
def sortByMem (l : List Container) : List Container := List.insertionSort memGe l

/-- Snapshot A of the specification's sorting example:
cpu 50, mem 100. -/
def contA : Container := ⟨"A", 0, 0, 50, 100⟩

/-- Snapshot B of the specification's sorting example:
cpu 80, mem 50. -/
def contB : Container := ⟨"B", 0, 0, 80, 50⟩

/-- Claim C7: CPU mode orders snapshots by descending `CpuPct` and
memory mode by descending `Mem` — each sort returns a permutation of its
input sorted by the respective descending order — and on the example
`{A: cpu=50 mem=100, B: cpu=80 mem=50}` CPU mode yields `[B, A]` and
memory mode `[A, B]`. -/
theorem c7_sort_modes :
    sortByCpu [contA, contB] = [contB, contA] ∧
    sortByMem [contA, contB] = [contA, contB] ∧
    (∀ l : List Container, List.Sorted cpuGe (sortByCpu l) ∧ List.Perm (sortByCpu l) l) ∧
    (∀ l : List Container, List.Sorted memGe (sortByMem l) ∧ List.Perm (sortByMem l) l) :=
  ⟨by decide, by decide,
   fun l => ⟨List.sorted_insertionSort cpuGe l, List.perm_insertionSort cpuGe l⟩,
   fun l => ⟨List.sorted_insertionSort memGe l, List.perm_insertionSort memGe l⟩⟩

/-- Consecutive screen row numbers: `posList s n = [s, s+1, ..., s+n-1]`. -/
def posList : Nat → Nat → List Nat
  | _, 0 => []
  | s, n + 1 => s :: posList (s + 1) n

/-- The row loop of `sortAndDisplay` (main.go lines 179-189): walk the
sorted snapshots with index `i`, drawing at screen row `pos = i + 3` and
breaking as soon as `pos >= height`.  The result lists the drawn rows as
(screen row, snapshot) pairs. -/
def displayRowsAux : Nat → List Container → Nat → List (Nat × Container)
  | _, [], _ => []
  | i, c :: cs, height =>
      if height ≤ i + 3 then []
      else (i + 3, c) :: displayRowsAux (i + 1) cs height

/-- The data rows drawn by `sortAndDisplay` for a sorted snapshot list
and a terminal height. -/
def displayRows (cs : List Container) (height : Nat) : List (Nat × Container) :=
  displayRowsAux 0 cs height

lemma posList_length (s n : Nat) : (posList s n).length = n := by
  induction n generalizing s with
  | zero => rfl
  | succ n ih => simp [posList, ih]

lemma displayRowsAux_eq (cs : List Container) :
    ∀ i height, displayRowsAux i cs height =
      (posList (i + 3) (min cs.length (height - (i + 3)))).zip cs := by
  induction cs with
  | nil => intro i height; simp [displayRowsAux]
  | cons c cs ih =>
      intro i height
      by_cases hp : height ≤ i + 3
      · have h0 : min (c :: cs).length (height - (i + 3)) = 0 := by
          simp only [List.length_cons]
          omega
        simp [displayRowsAux, hp, h0, posList]
      · have hstep : min (c :: cs).length (height - (i + 3)) =
            min cs.length (height - (i + 1 + 3)) + 1 := by
          simp only [List.length_cons]
          omega
        simp only [displayRowsAux, if_neg hp, hstep, posList, List.zip_cons_cons, ih (i + 1)]

/-- Claim C8: the renderer draws exactly `min(n, max(0, height - 3))`
data rows — the drawn rows are the leading snapshots paired with
consecutive screen rows starting at row 3, the tail being silently
dropped with no error — and with a height of 8 (5 available data rows)
and 8 containers exactly 5 rows are drawn. -/
theorem c8_row_truncation :
    (∀ (cs : List Container) (height : Nat),
      displayRows cs height = (posList 3 (min cs.length (height - 3))).zip cs) ∧
    (∀ (cs : List Container) (height : Nat),
      (displayRows cs height).length = min cs.length (height - 3)) ∧
    (displayRows (List.replicate 8 contA) 8).length = 5 :=
  ⟨fun cs height => displayRowsAux_eq cs 0 height,
   fun cs height => by
     rw [displayRows, displayRowsAux_eq cs 0 height, List.length_zip, posList_length]
     omega,
   by decide⟩
